import Mathlib

/-!
Shallow embedding of the interactive table browser in `dbv/tui.py`
(the helper `compile_filter` and the classes `TableView`,
`CaptureKeyboardInput`, `Interface`), together with theorems checking the
specification's claims about it.  External collaborators — pandas/dask
dataframes, the `rich` rendering surface and Python `eval` — are modelled
by explicit data and by abstract function parameters.
-/

namespace Dbv

/-- Control character `ESCAPE_KEY = "\x1b"` from `tui.py`. -/
def ESCAPE_KEY : Char := Char.ofNat 0x1b

/-- Control character `CTRL_H = "\x08"` from `tui.py`. -/
def CTRL_H : Char := Char.ofNat 0x08

/-- Control character `BACKSPACE = "\x7f"` from `tui.py`. -/
def BACKSPACE : Char := Char.ofNat 0x7f

/-- Control character `CTRL_K = "\x0b"` from `tui.py`. -/
def CTRL_K : Char := Char.ofNat 0x0b

/-- Row-major model of a pandas/dask `DataFrame` (the external data source):
an ordered list of column names and a list of rows, each row a list of cell
values of type `α`.  `len(df)` is `rows.length`, `len(df.columns)` is
`names.length`. -/
structure PyDataFrame (α : Type) where
  names : List String
  rows : List (List α)
deriving DecidableEq, Repr

/-- Well-formedness of the dataframe model: every row has one cell per
column (pandas guarantees this shape). -/
def PyDataFrame.wf (df : PyDataFrame α) : Prop :=
  ∀ r ∈ df.rows, r.length = df.names.length

instance (df : PyDataFrame α) : Decidable df.wf := by
  unfold PyDataFrame.wf; infer_instance

/-- Column extraction: `getattr(df, name)` resolved by position.  On a
pandas/dask dataframe, attribute access for a name that is a column label
resolves (via `__getattr__`) to that column; we model the column's values
row by row. -/
def PyDataFrame.column [Inhabited α] (df : PyDataFrame α) (j : Nat) : List α :=
  df.rows.map (fun r => r.getD j default)

/-- Python `needle in haystack` on strings: case-sensitive literal substring
containment (this is what `Series.str.contains(..., regex=False)` tests
per cell). -/
def strContains (hay needle : String) : Bool :=
  decide (needle.data <:+: hay.data)

/-- Boolean-mask row selection `df[mask]` (pandas semantics): keep exactly
the rows at positions where the mask is `true`, preserving order. -/
def applyMask (mask : List Bool) (l : List β) : List β :=
  (mask.zip l).filterMap (fun p => if p.1 then some p.2 else none)

/-- `df[mask]` for a boolean mask: row selection preserving column names. -/
def PyDataFrame.selectRows (df : PyDataFrame α) (mask : List Bool) : PyDataFrame α :=
  ⟨df.names, applyMask mask df.rows⟩

/-- Python's `str.strip()` whitespace set (ASCII part): space, tab, newline,
carriage return, vertical tab, form feed. -/
def pySpace (c : Char) : Bool :=
  c = ' ' || c = '\t' || c = '\n' || c = '\r' || c = Char.ofNat 11 || c = Char.ofNat 12

/-- Python `s.strip()`: drop leading and trailing whitespace. -/
def pyStrip (s : String) : String :=
  ⟨((s.data.dropWhile pySpace).reverse.dropWhile pySpace).reverse⟩

/-- Possible shapes of the value produced by Python `eval` on the filter
text (line 128 of `tui.py`): a boolean per-row mask, a column of values
(a non-boolean Series), a string literal, or anything else.  `eval` itself
is external and is passed to `compiled_filter` as an abstract function. -/
inductive EvalResult (α : Type) where
  | boolMask (m : List Bool)
  | colValue (c : List α)
  | strLit (s : String)
  | otherVal
deriving DecidableEq

/-- Result of `_compiled_filter(df)`: either a dataframe or a single column
(a Series, carrying its name and its values).  These are the only two
non-raising result shapes of `df[evaluated]` in pandas. -/
inductive FilterOutcome (α : Type) where
  | frame (f : PyDataFrame α)
  | series (name : String) (vals : List α)
deriving DecidableEq

/-- Indexing `df[evaluated]` (line 131 of `tui.py`), with pandas semantics
for each `eval` result shape: a boolean mask of matching length selects
rows; a string that is a column label yields that column as a Series; a
non-boolean column value (Series) raises `KeyError`, as does any other
value that is not a valid column key. -/
def df_getitem [Inhabited α] (df : PyDataFrame α) (r : EvalResult α) :
    Except Unit (FilterOutcome α) :=
  match r with
  | .boolMask m =>
      if m.length = df.rows.length then .ok (.frame (df.selectRows m)) else .error ()
  | .strLit s =>
      if s ∈ df.names then .ok (.series s (df.column (List.indexOf s df.names))) else .error ()
  | .colValue _ => .error ()
  | .otherVal => .error ()

/-- The body of `compile_filter._compiled_filter` (lines 118-131 of
`tui.py`): if the stripped filter string is a column name, return that
column (the Series); otherwise evaluate the filter string — `evalFn`
abstracts Python `eval` with the columns bound in scope — and index the
dataframe by the result.  An exception anywhere is an `error`. -/
def compiled_filter [Inhabited α]
    (evalFn : String → PyDataFrame α → Except Unit (EvalResult α))
    (filter_string : String) (df : PyDataFrame α) :
    Except Unit (FilterOutcome α) :=
  if pyStrip filter_string ∈ df.names then
    .ok (.series (pyStrip filter_string) (df.column (List.indexOf (pyStrip filter_string) df.names)))
  else
    (evalFn filter_string df).bind (fun r => df_getitem df r)

/-- `Series.to_frame()`: wrap a single column into a one-column dataframe. -/
def series_to_frame (name : String) (vals : List α) : PyDataFrame α :=
  ⟨[name], vals.map (fun v => [v])⟩

/-- The substring fallback of the nested `filter` function (lines 215-225
of `tui.py`):
`df[functools.reduce(operator.or_, [getattr(df, col).map(str).str.contains(text, regex=False) for col in df.columns])]`.
Each column is stringified cell-wise with `toStr` (Python `str`) and tested
for literal substring containment; the per-column boolean masks are
OR-reduced elementwise and used to select rows.  `functools.reduce` of an
empty sequence (a dataframe with no columns) raises `TypeError`, modelled
by `error`. -/
def substring_fallback [Inhabited α] (toStr : α → String) (df : PyDataFrame α)
    (text : String) : Except Unit (PyDataFrame α) :=
  match (List.range df.names.length).map
      (fun j => (df.column j).map (fun v => strContains (toStr v) text)) with
  | [] => .error ()
  | m :: ms => .ok (df.selectRows (ms.foldl (fun acc m2 => acc.zipWith (fun a b => a || b) m2) m))

/-- The nested `filter` function of `TableView.__rich_console__` (lines
204-226 of `tui.py`).  `compiled` is the outcome of running
`compile_filter(self.filter)(df)` (the body of the `try` block): a
dataframe is returned as is; a Series is wrapped by `to_frame()`; on any
exception, if the filter text is non-empty the substring fallback runs
(inside the `except` handler, so its own exceptions propagate), otherwise
the dataframe is returned unfiltered. -/
def filter_step [Inhabited α] (toStr : α → String) (df : PyDataFrame α)
    (compiled : Except Unit (FilterOutcome α)) (text : String) :
    Except Unit (PyDataFrame α) :=
  match compiled with
  | .ok (.frame f) => .ok f
  | .ok (.series n vals) => .ok (series_to_frame n vals)
  | .error _ => if text = "" then .ok df else substring_fallback toStr df text

/-- Modelled from the spec (§4.3 step 4 wording), for comparison with the
code's fallback: a row is kept if and only if at least one column's
stringified value contains the filter text as a case-sensitive substring. -/
def substring_search_spec (toStr : α → String) (df : PyDataFrame α)
    (text : String) : PyDataFrame α :=
  ⟨df.names, df.rows.filter (fun r => r.any (fun v => strContains (toStr v) text))⟩

/-- The clamp used by the `startat` and `column_startat` setters of
`TableView` (lines 158 and 168 of `tui.py`):
`min(n - 1, max(0, v))` where `n` is `len(self.df)` respectively
`len(self.df.columns)`. -/
def startat_clamp (n : Int) (v : Int) : Int :=
  min (n - 1) (max 0 v)

/-- State of `TableView` (`tui.py` lines 136-183): the backing dataframe
`self.df` (set at construction and never reassigned), `_last_page_size`,
`_startat`, `_column_startat`, and the value held by the `_filter` editor
(`CaptureKeyboardInput.value`). -/
structure TableView (α : Type) where
  df : PyDataFrame α
  last_page_size : Int
  startat : Int
  column_startat : Int
  filter_value : String
deriving DecidableEq

/-- The `startat` setter (lines 155-158):
`self._startat = min(len(self.df) - 1, max(0, startat))`.  `len` of a
dataframe is its row count. -/
def TableView.set_startat (tv : TableView α) (v : Int) : TableView α :=
  { tv with startat := startat_clamp tv.df.rows.length v }

/-- The `column_startat` setter (lines 165-168):
`self._column_startat = min(len(self.df.columns) - 1, max(0, column_startat))`. -/
def TableView.set_column_startat (tv : TableView α) (v : Int) : TableView α :=
  { tv with column_startat := startat_clamp tv.df.names.length v }

/-- `TableView.increment_page` (lines 170-172): `self.startat += self._last_page_size`,
which routes the incremented value through the `startat` setter. -/
def TableView.increment_page (tv : TableView α) : TableView α :=
  tv.set_startat (tv.startat + tv.last_page_size)

/-- `TableView.decrement_page` (lines 174-176): `self.startat -= self._last_page_size`. -/
def TableView.decrement_page (tv : TableView α) : TableView α :=
  tv.set_startat (tv.startat - tv.last_page_size)

/-- `itertools.islice(it, start, stop)` on a finite iterator, for
non-negative bounds: the elements at positions `[start, stop)`; empty when
`stop ≤ start`. -/
def pyIslice (l : List β) (start stop : Nat) : List β :=
  (l.drop start).take (stop - start)

/-- Page materialization in `TableView.__rich_console__` (lines 235-237):
`list(itertools.islice(filtered.itertuples(), self.startat, self.startat + height))`,
over the rows of the filtered (and column-sliced) view. -/
def materialize_page (filteredRows : List β) (startat height : Nat) : List β :=
  pyIslice filteredRows startat (startat + height)

/-! ### Column fit (lines 255-274 of `__rich_console__`)

The measured maximum text width of each rendered column (the synthetic
index column followed by the data columns) is an external `rich`
capability; the fit algorithm receives the list of per-column maximum
widths. -/

/-- Running cumulative widths `np.add.accumulate(max_column_widths)` where
each column contributes its measured maximum width plus 1 for the column
separator (line 259). -/
def cum_widths (acc : Int) : List Nat → List Int
  | [] => []
  | w :: ws => (acc + w + 1) :: cum_widths (acc + w + 1) ws

/-- `np.where(total_width > width)[0][0]`: index of the first cumulative
width strictly exceeding the available width, if any. -/
def first_exceed (width : Int) : List Int → Option Nat
  | [] => none
  | t :: ts => if width < t then some 0 else (first_exceed width ts).map (fun i => i + 1)

/-- The column-fit computation (lines 262-274): number of columns admitted
for rendering.  `ws` lists the measured maximum width of each column built
from the materialized page (so `ws.length` is the number of rendered
columns, synthetic index column included) and `num_names` is the length of
`column_names`; when the page is non-empty the two lengths coincide.  If no
cumulative width exceeds the viewport width, every column renders;
otherwise at least one column always renders, and the slack heuristic
(`available_width >= 30 and available_width / max_column >= 4`, exact
rational division) may admit one extra overflowing column. -/
def fit_columns (width : Int) (ws : List Nat) (num_names : Nat) : Nat :=
  match first_exceed width (cum_widths 0 ws) with
  | none => num_names
  | some i0 =>
    if max i0 1 < ws.length then
      if 30 ≤ width - (cum_widths 0 ws).getD (max i0 1 - 1) 0 ∧
          4 * ((max i0 1 : Nat) : Int) ≤ width - (cum_widths 0 ws).getD (max i0 1 - 1) 0
      then max i0 1 + 1
      else max i0 1
    else max i0 1

/-! ### The editor (`CaptureKeyboardInput`, lines 286-319) -/

/-- State of `CaptureKeyboardInput` relevant to the dispatcher: the
accumulated `value` and the `editing` flag.  The `update` policy and the
`finalize` callback are function-valued fields; the policy is passed to the
functions below as an explicit parameter, and `finalize` invocations are
counted by the dispatcher model. -/
structure CaptureKeyboardInput where
  value : String
  editing : Bool
deriving DecidableEq

/-- `CaptureKeyboardInput.send_character` (lines 296-304): backspace-class
characters drop the last character of the buffer (`value[:-1]`, a no-op on
an empty buffer), `CTRL_K` clears it, any other character is appended; the
update policy is then applied to the new buffer and may rewrite it
(`update` receives the editor, modelled by returning the possibly-updated
value), its boolean result being returned. -/
def send_character (update : String → String × Bool)
    (cap : CaptureKeyboardInput) (ch : Char) : CaptureKeyboardInput × Bool :=
  let v := if ch = BACKSPACE || ch = CTRL_H then cap.value.dropRight 1
    else if ch = CTRL_K then ""
    else cap.value.push ch
  let r := update v
  ({ cap with value := r.1 }, r.2)

/-- Python `s.endswith("\n")`: the last character is a newline. -/
def ends_with_newline (s : String) : Bool :=
  s.data.getLast? == some '\n'

/-- Python `s.rstrip("\r\n")`: drop every trailing character belonging to
the set containing carriage return and newline. -/
def rstrip_rn (s : String) : String :=
  ⟨(s.data.reverse.dropWhile (fun c => c = '\r' || c = '\n')).reverse⟩

/-- `CaptureKeyboardInput.exit_on_return` (lines 306-312), the default
policy of the filter prompt: once the buffer ends with a newline, rewrite
the committed value to `value.rstrip("\r\n")` and terminate editing
(return `false`); otherwise keep editing. -/
def exit_on_return (s : String) : String × Bool :=
  if ends_with_newline s then (rstrip_rn s, false) else (s, true)

/-! ### The dispatcher (`Interface.keyboard_handler`, lines 375-401) -/

/-- `Mode` enum of `tui.py`. -/
inductive PyMode where
  | summary
  | table
  | help
deriving DecidableEq

/-- Dispatcher-relevant state of `Interface`: the current mode, the
`TableView`'s filter editor object (`self.table._filter`, the only editor
ever assigned to `self.editing`), and whether `self.editing` currently
references it (`capturing = true` iff `self.editing is not None`). -/
structure Interface where
  mode : PyMode
  table_filter : CaptureKeyboardInput
  capturing : Bool
deriving DecidableEq

/-- A registered command's handler `fn(self, refresh)`: it may mutate the
interface state and returns the continue/stop boolean.  The `refresh`
callback only schedules a redraw and carries no state, so it is dropped
from the model. -/
def Handler : Type := Interface → Interface × Bool

/-- Key lookup in a command registry (`ch in command_dict` followed by
`command_dict[ch]`). -/
def lookupCommand (cmds : List (Char × Handler)) (ch : Char) : Option Handler :=
  (cmds.find? (fun p => p.1 = ch)).map (fun p => p.2)

/-- `Interface.keyboard_handler` (lines 375-401).  Returns the new
interface state, the continue-running boolean, and the number of times the
`finalize` callback of the active editor was invoked during this
keystroke.  While an editor is capturing input: the escape key
short-circuits (`ch == ESCAPE_KEY or not ...send_character(ch)`), so the
editor's `send_character` — and hence its update policy — is not invoked;
any path that ends editing invokes `finalize` once, clears the editor's
`editing` flag and releases `self.editing`; the branch always returns
`True`.  Otherwise table-scope commands are consulted first (only in table
mode), then global commands; an unregistered key is a no-op returning
`True`. -/
def keyboard_handler (update : String → String × Bool)
    (table_commands commands : List (Char × Handler))
    (st : Interface) (ch : Char) : Interface × Bool × Nat :=
  if st.capturing then
    if ch = ESCAPE_KEY then
      let ed := { st.table_filter with editing := false }
      ({ st with table_filter := ed, capturing := false }, true, 1)
    else
      let r := send_character update st.table_filter ch
      if r.2 then ({ st with table_filter := r.1 }, true, 0)
      else
        let ed := { r.1 with editing := false }
        ({ st with table_filter := ed, capturing := false }, true, 1)
  else
    match (if st.mode = PyMode.table then lookupCommand table_commands ch else none) with
    | some cmd => ((cmd st).1, (cmd st).2, 0)
    | none =>
      match lookupCommand commands ch with
      | some cmd => ((cmd st).1, (cmd st).2, 0)
      | none => (st, true, 0)

/-- Process a sequence of keystrokes, accumulating the total number of
`finalize` invocations. -/
def run_chars (update : String → String × Bool)
    (table_commands commands : List (Char × Handler)) :
    Interface → List Char → Interface × Nat
  | st, [] => (st, 0)
  | st, c :: cs =>
    let r := keyboard_handler update table_commands commands st c
    let rest := run_chars update table_commands commands r.1 cs
    (rest.1, r.2.2 + rest.2)

/-- The editor is actively capturing at the moment each character of the
sequence is handled: this delimits one editing session. -/
def capturing_throughout (update : String → String × Bool)
    (table_commands commands : List (Char × Handler)) :
    Interface → List Char → Prop
  | _, [] => True
  | st, c :: cs =>
    st.capturing = true ∧
      capturing_throughout update table_commands commands
        (keyboard_handler update table_commands commands st c).1 cs

/-! ### Theorems -/

/-- Claim C1, as stated, is false on the code: for an empty data source
(`rowCount = 0`) the `startat` setter stores `min(-1, max(0, v)) = -1`,
not `0`, violating `0 ≤ startat`. -/
theorem claim_C1_counterexample :
    ((⟨⟨["a"], []⟩, 0, 0, 0, ""⟩ : TableView Unit).set_startat 5).startat = -1 ∧
    ¬ (0 ≤ ((⟨⟨["a"], []⟩, 0, 0, 0, ""⟩ : TableView Unit).set_startat 5).startat) := by
  decide

/-- Claim C1 (amended): after assigning through the `startat` setter, for a
non-empty data source the stored value satisfies
`0 ≤ startat < max(rowCount, 1)`; for an empty data source (`rowCount = 0`)
the stored value is `-1`, not `0`. -/
theorem claim_C1_theorem (tv : TableView α) (v : Int) :
    (1 ≤ tv.df.rows.length →
      0 ≤ (tv.set_startat v).startat ∧
        (tv.set_startat v).startat < max (tv.df.rows.length : Int) 1) ∧
    (tv.df.rows.length = 0 → (tv.set_startat v).startat = -1) := by
  constructor
  · intro h
    have : (tv.set_startat v).startat
        = min ((tv.df.rows.length : Int) - 1) (max 0 v) := rfl
    rw [this]
    omega
  · intro h
    have : (tv.set_startat v).startat
        = min ((tv.df.rows.length : Int) - 1) (max 0 v) := rfl
    rw [this, h]
    omega

/-- Witness for `claim_C1_theorem` at concrete inputs: a two-row source
with requested offset 5, and an empty source with requested offset 5. -/
theorem claim_C1_witness :
    (0 ≤ ((⟨⟨["a"], [[()], [()]]⟩, 0, 0, 0, ""⟩ : TableView Unit).set_startat 5).startat ∧
      ((⟨⟨["a"], [[()], [()]]⟩, 0, 0, 0, ""⟩ : TableView Unit).set_startat 5).startat
        < max ((⟨⟨["a"], [[()], [()]]⟩, 0, 0, 0, ""⟩ : TableView Unit).df.rows.length : Int) 1) ∧
    ((⟨⟨["a"], []⟩, 0, 0, 0, ""⟩ : TableView Unit).set_startat 5).startat = -1 := by
  exact ⟨(claim_C1_theorem _ 5).1 (by decide), (claim_C1_theorem _ 5).2 (by decide)⟩

/-- Claim C6: page-down (`increment_page`) followed by page-up
(`decrement_page`) with the same `lastPageSize` restores the original
`startat` whenever neither operation's clamp takes effect (each clamp
returns its argument unchanged). -/
theorem claim_C6_theorem (tv : TableView α)
    (h1 : startat_clamp tv.df.rows.length (tv.startat + tv.last_page_size)
      = tv.startat + tv.last_page_size)
    (h2 : startat_clamp tv.df.rows.length tv.startat = tv.startat) :
    tv.increment_page.decrement_page.startat = tv.startat := by
  have hd : tv.increment_page.decrement_page.startat
      = startat_clamp tv.df.rows.length
          (startat_clamp tv.df.rows.length (tv.startat + tv.last_page_size)
            - tv.last_page_size) := rfl
  rw [hd, h1, add_sub_cancel_right, h2]

/-- Witness for `claim_C6_theorem`: three rows, `startat = 0`,
`lastPageSize = 1`; neither clamp binds and the offset returns to 0. -/
theorem claim_C6_witness :
    (⟨⟨["a"], [[()], [()], [()]]⟩, 1, 0, 0, ""⟩ :
      TableView Unit).increment_page.decrement_page.startat = 0 := by
  exact claim_C6_theorem _ (by decide) (by decide)

/-- Claim C10: the `startat` and `column_startat` setters clamp against the
unfiltered source dataframe's row and column counts — the stored value is
unchanged under any change of the filter text and equals the clamp against
the source counts — and whenever the stored row offset reaches the
filtered view's row count, the materialized page is empty. -/
theorem claim_C10_theorem (tv : TableView α) (fv : String) (v : Int)
    (filteredRows : List β) (s h : Nat) (hs : filteredRows.length ≤ s) :
    (({ tv with filter_value := fv }).set_startat v).startat
      = (tv.set_startat v).startat ∧
    (tv.set_startat v).startat = startat_clamp tv.df.rows.length v ∧
    (({ tv with filter_value := fv }).set_column_startat v).column_startat
      = (tv.set_column_startat v).column_startat ∧
    (tv.set_column_startat v).column_startat
      = startat_clamp tv.df.names.length v ∧
    materialize_page filteredRows s h = [] := by
  refine ⟨rfl, rfl, rfl, rfl, ?_⟩
  unfold materialize_page pyIslice
  rw [List.drop_eq_nil_of_le hs, List.take_nil]

/-- Witness for `claim_C10_theorem`: a three-row source whose filtered view
has one row; `startat` set to 2 is stored (clamped only against the source
row count 3) and the filtered page starting at 2 is empty. -/
theorem claim_C10_witness :
    ((({ (⟨⟨["a"], [[()], [()], [()]]⟩, 0, 0, 0, ""⟩ : TableView Unit) with
        filter_value := "x" }).set_startat 2).startat
      = ((⟨⟨["a"], [[()], [()], [()]]⟩, 0, 0, 0, ""⟩ : TableView Unit).set_startat 2).startat) ∧
    ((⟨⟨["a"], [[()], [()], [()]]⟩, 0, 0, 0, ""⟩ : TableView Unit).set_startat 2).startat
      = startat_clamp 3 2 ∧
    ((({ (⟨⟨["a"], [[()], [()], [()]]⟩, 0, 0, 0, ""⟩ : TableView Unit) with
        filter_value := "x" }).set_column_startat 2).column_startat
      = ((⟨⟨["a"], [[()], [()], [()]]⟩, 0, 0, 0, ""⟩ : TableView Unit).set_column_startat 2).column_startat) ∧
    ((⟨⟨["a"], [[()], [()], [()]]⟩, 0, 0, 0, ""⟩ : TableView Unit).set_column_startat 2).column_startat
      = startat_clamp 1 2 ∧
    materialize_page [42] 2 5 = [] := by
  exact claim_C10_theorem _ "x" 2 [42] 2 5 (by decide)

/-- Claim C4: whenever running the compiled filter succeeds and yields a
single column value (a Series, rather than a dataframe of selected rows),
the filter step's output is the one-column view wrapping that column value
(`Series.to_frame()`: one column of that name, one singleton row per
value). -/
theorem claim_C4_theorem [Inhabited α] (toStr : α → String)
    (ev : String → PyDataFrame α → Except Unit (EvalResult α))
    (text : String) (df : PyDataFrame α) (n : String) (vals : List α)
    (h : compiled_filter ev text df = .ok (.series n vals)) :
    filter_step toStr df (compiled_filter ev text df) text
      = .ok ⟨[n], vals.map (fun v => [v])⟩ := by
  rw [h]; rfl

/-- Witness for `claim_C4_theorem`: the filter text `"xyz"` is not a
column name; evaluation yields the string `"age"`, a column label, so
`df[evaluated]` is the `age` Series and the output wraps it into a
one-column view. -/
theorem claim_C4_witness :
    filter_step (fun s : String => s) ⟨["age"], [["1"], ["2"]]⟩
      (compiled_filter (fun _ _ => .ok (.strLit "age")) "xyz" ⟨["age"], [["1"], ["2"]]⟩)
      "xyz" = .ok ⟨["age"], [["1"], ["2"]]⟩ := by
  have h := claim_C4_theorem (fun s : String => s)
    (fun _ _ => .ok (.strLit "age")) "xyz" ⟨["age"], [["1"], ["2"]]⟩
    "age" ["1", "2"] (by rfl)
  simpa using h

/-- Claim C5: for every filter text whose whitespace-stripped form exactly
equals a column name, the compiled filter takes the column fast path and
the filter step returns the one-column view containing exactly that
column of the source. -/
theorem claim_C5_theorem [Inhabited α] (toStr : α → String)
    (ev : String → PyDataFrame α → Except Unit (EvalResult α))
    (text : String) (df : PyDataFrame α)
    (h : pyStrip text ∈ df.names) :
    filter_step toStr df (compiled_filter ev text df) text
      = .ok ⟨[pyStrip text],
          (df.column (List.indexOf (pyStrip text) df.names)).map (fun v => [v])⟩ := by
  unfold compiled_filter
  rw [if_pos h]
  rfl

/-- Witness for `claim_C5_theorem`: the filter text `" city "` strips to
the column name `"city"` and the result is the one-column view holding
exactly the `city` column. -/
theorem claim_C5_witness :
    filter_step (fun s : String => s) ⟨["name", "city"], [["bob", "nyc"], ["eve", "sf"]]⟩
      (compiled_filter (fun _ _ => .error ()) " city "
        ⟨["name", "city"], [["bob", "nyc"], ["eve", "sf"]]⟩)
      " city " = .ok ⟨["city"], [["nyc"], ["sf"]]⟩ := by
  have h := claim_C5_theorem (fun s : String => s) (fun _ _ => .error ())
    " city " ⟨["name", "city"], [["bob", "nyc"], ["eve", "sf"]]⟩ (by decide)
  simpa using h

/-- Helper: the head of `dropWhile p l`, when present, fails `p`. -/
theorem head?_dropWhile_false (p : γ → Bool) (l : List γ) (c : γ)
    (h : (l.dropWhile p).head? = some c) : p c = false := by
  induction l with
  | nil => simp [List.dropWhile] at h
  | cons a l ih =>
    rw [List.dropWhile_cons] at h
    by_cases hp : p a = true
    · rw [if_pos hp] at h; exact ih h
    · rw [if_neg hp] at h
      simp only [List.head?_cons, Option.some.injEq] at h
      subst h
      exact Bool.not_eq_true _ |>.mp hp

/-- Helper: `rstrip_rn` removes exactly a trailing block of carriage
returns and newlines — the result is an initial segment of the input, the
removed suffix consists only of such characters, and the result does not
end in one. -/
theorem rstrip_rn_spec (s : String) :
    ∃ t, s.data = (rstrip_rn s).data ++ t ∧
      (∀ c ∈ t, c = '\r' ∨ c = '\n') ∧
      ∀ c, (rstrip_rn s).data.getLast? = some c → ¬(c = '\r' ∨ c = '\n') := by
  refine ⟨(s.data.reverse.takeWhile (fun c => c = '\r' || c = '\n')).reverse, ?_, ?_, ?_⟩
  · conv_lhs => rw [← List.reverse_reverse s.data,
      ← List.takeWhile_append_dropWhile (fun c => c = '\r' || c = '\n') s.data.reverse]
    rw [List.reverse_append]
    rfl
  · intro c hc
    rw [List.mem_reverse] at hc
    have := List.mem_takeWhile_imp hc
    simpa using this
  · intro c hc
    have hh : (s.data.reverse.dropWhile (fun c => c = '\r' || c = '\n')).head? = some c := by
      rw [← List.getLast?_reverse]
      exact hc
    have := head?_dropWhile_false _ _ _ hh
    simpa using this

/-- Claim C8: the default filter-prompt policy `exit_on_return` returns
`false` (terminate editing) exactly when the buffer ends with a newline,
and on termination the committed value is the buffer with its trailing
newline/carriage-return characters stripped: it is an initial segment of
the buffer, the removed suffix consists only of `\r`/`\n`, and the
committed value does not end in `\r` or `\n`. -/
theorem claim_C8_theorem (s : String) :
    ((exit_on_return s).2 = false ↔ ends_with_newline s = true) ∧
    (ends_with_newline s = true →
      ∃ t, s.data = (exit_on_return s).1.data ++ t ∧
        (∀ c ∈ t, c = '\r' ∨ c = '\n') ∧
        ∀ c, (exit_on_return s).1.data.getLast? = some c → ¬(c = '\r' ∨ c = '\n')) := by
  by_cases h : ends_with_newline s = true
  · refine ⟨by simp [exit_on_return, h], fun _ => ?_⟩
    have hfst : (exit_on_return s).1 = rstrip_rn s := by simp [exit_on_return, h]
    rw [hfst]
    exact rstrip_rn_spec s
  · refine ⟨?_, fun hn => absurd hn h⟩
    simp [exit_on_return, h]

/-- Witness for `claim_C8_theorem` at the concrete buffer `"ab\r\n"`. -/
theorem claim_C8_witness :
    ((exit_on_return "ab\r\n").2 = false ↔ ends_with_newline "ab\r\n" = true) ∧
    (∃ t, "ab\r\n".data = (exit_on_return "ab\r\n").1.data ++ t ∧
      (∀ c ∈ t, c = '\r' ∨ c = '\n') ∧
      ∀ c, (exit_on_return "ab\r\n").1.data.getLast? = some c → ¬(c = '\r' ∨ c = '\n')) := by
  exact ⟨(claim_C8_theorem ("ab\r\n")).1, (claim_C8_theorem ("ab\r\n")).2 (by decide)⟩

/-- Claim C9: while no editor is active, a key registered in the table
scope runs that command's handler when the mode is Table; otherwise a key
registered in the global scope runs that handler; a key in neither scope
is a silent no-op returning `true`; and a handler's boolean result is
returned unchanged as the dispatcher's result. -/
theorem claim_C9_theorem (update : String → String × Bool)
    (tc gc : List (Char × Handler)) (st : Interface) (ch : Char)
    (hcap : st.capturing = false) :
    (∀ h, st.mode = PyMode.table → lookupCommand tc ch = some h →
      keyboard_handler update tc gc st ch = ((h st).1, (h st).2, 0)) ∧
    (∀ h2, (st.mode = PyMode.table → lookupCommand tc ch = none) →
      lookupCommand gc ch = some h2 →
      keyboard_handler update tc gc st ch = ((h2 st).1, (h2 st).2, 0)) ∧
    ((st.mode = PyMode.table → lookupCommand tc ch = none) →
      lookupCommand gc ch = none →
      keyboard_handler update tc gc st ch = (st, true, 0)) := by
  refine ⟨?_, ?_, ?_⟩
  · intro h hmode hl
    unfold keyboard_handler
    rw [hcap]
    simp [hmode, hl]
  · intro h2 hnone hl
    unfold keyboard_handler
    rw [hcap]
    by_cases hmode : st.mode = PyMode.table
    · simp [hmode, hnone hmode, hl]
    · simp [hmode, hl]
  · intro hnone hgl
    unfold keyboard_handler
    rw [hcap]
    by_cases hmode : st.mode = PyMode.table
    · simp [hmode, hnone hmode, hgl]
    · simp [hmode, hgl]

/-- Witness for `claim_C9_theorem`: table mode with `j` bound in the table
scope runs that handler; its return value `true` comes back unchanged. -/
theorem claim_C9_witness :
    keyboard_handler (fun s => (s, true))
      [('j', fun st => (st, true))] [('q', fun _ => (⟨PyMode.table, ⟨"", false⟩, false⟩, false))]
      ⟨PyMode.table, ⟨"", false⟩, false⟩ 'j'
      = (⟨PyMode.table, ⟨"", false⟩, false⟩, true, 0) := by
  exact (claim_C9_theorem (fun s => (s, true)) _ _ _ 'j' rfl).1
    (fun st => (st, true)) rfl rfl

/-- Helper: while an editor is capturing, one keystroke either ends the
session (releasing the capture and invoking `finalize` once) or keeps it
(no `finalize` call). -/
theorem capturing_step (update : String → String × Bool)
    (tc gc : List (Char × Handler)) (st : Interface) (ch : Char)
    (hcap : st.capturing = true) :
    ((keyboard_handler update tc gc st ch).1.capturing = false ∧
      (keyboard_handler update tc gc st ch).2.2 = 1) ∨
    ((keyboard_handler update tc gc st ch).1.capturing = true ∧
      (keyboard_handler update tc gc st ch).2.2 = 0) := by
  unfold keyboard_handler
  rw [hcap]
  by_cases he : ch = ESCAPE_KEY
  · left; simp [he]
  · rcases hk : (send_character update st.table_filter ch).2 with _ | _
    · left; simp [he, hk]
    · right; simp [he, hk, hcap]

/-- Claim C7, in three parts.  (1) The escape key while an editor is
active ends editing immediately: the resulting state, continue flag and
single `finalize` invocation are independent of the editor's update
policy, which is never consulted.  (2) Over any editing session — a
keystroke sequence handled entirely while the editor is capturing and
whose last keystroke releases the capture — `finalize` is invoked exactly
once, whichever path (escape or policy termination) ended it.  (3) The
dispatcher returns `true` for every character handled while editing. -/
theorem claim_C7_theorem :
    (∀ (update : String → String × Bool) (tc gc : List (Char × Handler))
        (st : Interface), st.capturing = true →
      keyboard_handler update tc gc st ESCAPE_KEY
        = (⟨st.mode, ⟨st.table_filter.value, false⟩, false⟩, true, 1)) ∧
    (∀ (update : String → String × Bool) (tc gc : List (Char × Handler))
        (st : Interface) (cs : List Char), cs ≠ [] →
      capturing_throughout update tc gc st cs →
      (run_chars update tc gc st cs).1.capturing = false →
      (run_chars update tc gc st cs).2 = 1) ∧
    (∀ (update : String → String × Bool) (tc gc : List (Char × Handler))
        (st : Interface) (ch : Char), st.capturing = true →
      (keyboard_handler update tc gc st ch).2.1 = true) := by
  refine ⟨?_, ?_, ?_⟩
  · intro update tc gc st hcap
    unfold keyboard_handler
    rw [hcap]
    simp
  · intro update tc gc st cs
    induction cs generalizing st with
    | nil => intro hne; exact absurd rfl hne
    | cons c cs ih =>
      intro _ hthr hfin
      obtain ⟨hcap, hthr2⟩ := hthr
      cases cs with
      | nil =>
        simp only [run_chars] at hfin ⊢
        rcases capturing_step update tc gc st c hcap with ⟨_, h2⟩ | ⟨h1, _⟩
        · simpa using h2
        · rw [hfin] at h1; cases h1
      | cons c2 cs2 =>
        have hcap2 := hthr2.1
        rcases capturing_step update tc gc st c hcap with ⟨h1, _⟩ | ⟨_, h2⟩
        · rw [hcap2] at h1; cases h1
        · simp only [run_chars] at hfin ⊢
          rw [h2]
          have := ih (keyboard_handler update tc gc st c).1 (by simp) hthr2 hfin
          simpa using this
  · intro update tc gc st ch hcap
    unfold keyboard_handler
    rw [hcap]
    by_cases he : ch = ESCAPE_KEY
    · simp [he]
    · rcases hk : (send_character update st.table_filter ch).2 with _ | _
      · simp [he, hk]
      · simp [he, hk]

/-- Witness for `claim_C7_theorem`: a capturing interface.  Escape ends
the session with one `finalize` call and no policy consultation; the
two-keystroke session `['a', newline]` under the `exit_on_return` policy
also finalizes exactly once; and every keystroke while editing returns
`true`. -/
theorem claim_C7_witness :
    (keyboard_handler (fun s => (s, false)) [] [] ⟨PyMode.table, ⟨"hi", true⟩, true⟩ ESCAPE_KEY
      = (⟨PyMode.table, ⟨"hi", false⟩, false⟩, true, 1)) ∧
    ((run_chars exit_on_return [] [] ⟨PyMode.table, ⟨"", true⟩, true⟩ ['a', '\n']).2 = 1) ∧
    ((keyboard_handler exit_on_return [] [] ⟨PyMode.table, ⟨"", true⟩, true⟩ 'a').2.1 = true) := by
  refine ⟨claim_C7_theorem.1 (fun s => (s, false)) [] [] _ rfl, ?_, ?_⟩
  · exact claim_C7_theorem.2.1 exit_on_return [] [] _ ['a', '\n'] (by decide)
      (by constructor; rfl; constructor; rfl; trivial) (by decide)
  · exact claim_C7_theorem.2.2 exit_on_return [] [] _ 'a' rfl

/-- Helper: `cum_widths` has one entry per column. -/
theorem cum_widths_length (acc : Int) (ws : List Nat) :
    (cum_widths acc ws).length = ws.length := by
  induction ws generalizing acc with
  | nil => rfl
  | cons w ws ih => simp [cum_widths, ih]

/-- Helper: when no cumulative width exceeds the viewport width, every
entry is bounded by it. -/
theorem first_exceed_none (width : Int) (ts : List Int)
    (h : first_exceed width ts = none) :
    ∀ i, i < ts.length → ts.getD i 0 ≤ width := by
  induction ts with
  | nil => intro i hi; simp at hi
  | cons t ts ih =>
    unfold first_exceed at h
    by_cases hlt : width < t
    · rw [if_pos hlt] at h; cases h
    · rw [if_neg hlt] at h
      have hnone : first_exceed width ts = none := by
        rcases he : first_exceed width ts with _ | i
        · rfl
        · rw [he] at h; simp at h
      intro i hi
      cases i with
      | zero => simpa using le_of_not_lt hlt
      | succ i => exact ih hnone i (by simpa using hi)

/-- Helper: the first index whose cumulative width exceeds the viewport
width is in range, exceeds it, and every earlier entry does not. -/
theorem first_exceed_some (width : Int) (ts : List Int) (i0 : Nat)
    (h : first_exceed width ts = some i0) :
    i0 < ts.length ∧ width < ts.getD i0 0 ∧ ∀ j, j < i0 → ts.getD j 0 ≤ width := by
  induction ts generalizing i0 with
  | nil => cases h
  | cons t ts ih =>
    unfold first_exceed at h
    by_cases hlt : width < t
    · rw [if_pos hlt] at h
      injection h with h
      subst h
      exact ⟨by simp, by simpa using hlt, fun j hj => absurd hj (Nat.not_lt_zero j)⟩
    · rw [if_neg hlt] at h
      rcases he : first_exceed width ts with _ | i
      · rw [he] at h; cases h
      · rw [he] at h
        simp only [Option.map_some', Option.some.injEq] at h
        subst h
        obtain ⟨hb, hx, hmin⟩ := ih i he
        refine ⟨by simpa using hb, by simpa using hx, ?_⟩
        intro j hj
        cases j with
        | zero => simpa using le_of_not_lt hlt
        | succ j => exact hmin j (by omega)

/-- Helper: unfolding of `fit_columns` when some cumulative width exceeds
the viewport width. -/
theorem fit_columns_some (width : Int) (ws : List Nat) (nn i0 : Nat)
    (hfe : first_exceed width (cum_widths 0 ws) = some i0) :
    fit_columns width ws nn =
      if max i0 1 < ws.length then
        if 30 ≤ width - (cum_widths 0 ws).getD (max i0 1 - 1) 0 ∧
            4 * ((max i0 1 : Nat) : Int) ≤ width - (cum_widths 0 ws).getD (max i0 1 - 1) 0
        then max i0 1 + 1
        else max i0 1
      else max i0 1 := by
  unfold fit_columns; rw [hfe]

/-- Claim C3: the column-fit step always admits between 1 and the total
rendered column count (the synthetic index column included), and the
cumulative width (measured maximum plus 1 for the separator) of every
admitted column except possibly the last is at most the available
viewport width. -/
theorem claim_C3_theorem (width : Int) (ws : List Nat) (hws : ws ≠ []) :
    1 ≤ fit_columns width ws ws.length ∧
    fit_columns width ws ws.length ≤ ws.length ∧
    ∀ i, i + 1 < fit_columns width ws ws.length →
      (cum_widths 0 ws).getD i 0 ≤ width := by
  have hlen : (cum_widths 0 ws).length = ws.length := cum_widths_length 0 ws
  have hpos : 0 < ws.length := List.length_pos.mpr hws
  rcases hfe : first_exceed width (cum_widths 0 ws) with _ | i0
  · have hfit : fit_columns width ws ws.length = ws.length := by
      unfold fit_columns; rw [hfe]
    rw [hfit]
    refine ⟨hpos, le_rfl, ?_⟩
    intro i hi
    exact first_exceed_none width _ hfe i (by omega)
  · obtain ⟨hb, hx, hmin⟩ := first_exceed_some width _ i0 hfe
    rw [hlen] at hb
    by_cases hmc : max i0 1 < ws.length
    · by_cases hheur : 30 ≤ width - (cum_widths 0 ws).getD (max i0 1 - 1) 0 ∧
          4 * ((max i0 1 : Nat) : Int) ≤ width - (cum_widths 0 ws).getD (max i0 1 - 1) 0
      · have hfit : fit_columns width ws ws.length = max i0 1 + 1 := by
          rw [fit_columns_some width ws ws.length i0 hfe, if_pos hmc, if_pos hheur]
        have hi0pos : 1 ≤ i0 := by
          by_contra hcon
          have hz : i0 = 0 := by omega
          subst hz
          have h30 := hheur.1
          have hrw : max 0 1 - 1 = 0 := by decide
          rw [hrw] at h30
          omega
        have hmax : max i0 1 = i0 := by omega
        rw [hfit, hmax]
        refine ⟨by omega, by omega, ?_⟩
        intro i hi
        exact hmin i (by omega)
      · have hfit : fit_columns width ws ws.length = max i0 1 := by
          rw [fit_columns_some width ws ws.length i0 hfe, if_pos hmc, if_neg hheur]
        rw [hfit]
        refine ⟨by omega, by omega, ?_⟩
        intro i hi
        have : i < i0 := by omega
        exact hmin i this
    · have hfit : fit_columns width ws ws.length = max i0 1 := by
        rw [fit_columns_some width ws ws.length i0 hfe, if_neg hmc]
      rw [hfit]
      refine ⟨by omega, by omega, ?_⟩
      intro i hi
      have : i < i0 := by omega
      exact hmin i this

/-- Witness for `claim_C3_theorem`: four columns of measured widths
`[3, 5, 8, 2]` in a viewport of width 12 — the fit admits at least one and
at most four columns, and all admitted columns except possibly the last
fit inside the width budget. -/
theorem claim_C3_witness :
    1 ≤ fit_columns 12 [3, 5, 8, 2] 4 ∧
    fit_columns 12 [3, 5, 8, 2] 4 ≤ 4 ∧
    ∀ i, i + 1 < fit_columns 12 [3, 5, 8, 2] 4 →
      (cum_widths 0 [3, 5, 8, 2]).getD i 0 ≤ 12 := by
  have h := claim_C3_theorem 12 [3, 5, 8, 2] (by decide)
  simpa using h

/-- Helper: elementwise OR of two masks obtained by mapping over the same
row list. -/
theorem zipWith_or_map (f g : β → Bool) (l : List β) :
    List.zipWith (fun a b => a || b) (l.map f) (l.map g)
      = l.map (fun x => f x || g x) := by
  induction l with
  | nil => rfl
  | cons a l ih => simp [ih]

/-- Helper: OR-folding a family of masks, each mapped from the same row
list, equals mapping the OR-fold of the per-row bits. -/
theorem foldl_zipWith_or_map (rows : List β) (js : List Nat)
    (f0 : β → Bool) (fj : Nat → β → Bool) :
    (js.map (fun j => rows.map (fj j))).foldl
        (fun acc m2 => acc.zipWith (fun a b => a || b) m2) (rows.map f0)
      = rows.map (fun r => js.foldl (fun b j => b || fj j r) (f0 r)) := by
  induction js generalizing f0 with
  | nil => simp
  | cons j js ih =>
    simp only [List.map_cons, List.foldl_cons, zipWith_or_map]
    exact ih (fun r => f0 r || fj j r)

/-- Helper: OR-folding booleans equals `any`. -/
theorem foldl_or_any (js : List γ) (q : γ → Bool) (b : Bool) :
    js.foldl (fun acc j => acc || q j) b = (b || js.any q) := by
  induction js generalizing b with
  | nil => simp
  | cons j js ih =>
    rw [List.foldl_cons, ih (b || q j), List.any_cons, Bool.or_assoc]

/-- Helper: selecting by a mask computed from the rows themselves is a
filter. -/
theorem applyMask_map (q : β → Bool) (rows : List β) :
    applyMask (rows.map q) rows = rows.filter q := by
  induction rows with
  | nil => rfl
  | cons r rows ih =>
    simp only [applyMask, List.map_cons, List.zip_cons_cons, List.filterMap_cons] at ih ⊢
    by_cases h : q r <;> simp [h, List.filter_cons, ih]

/-- Helper: testing a predicate at every position of a row equals testing
it on the row's elements. -/
theorem range_any_getD [Inhabited α] (p : α → Bool) (r : List α) :
    (List.range r.length).any (fun j => p (r.getD j default)) = r.any p := by
  induction r with
  | nil => simp
  | cons a t ih =>
    rw [List.length_cons, List.range_succ_eq_map]
    simp only [List.any_cons, List.any_map]
    have hcomp : ((fun j => p ((a :: t).getD j default)) ∘ (fun n => n + 1))
        = fun j => p (t.getD j default) := rfl
    rw [hcomp, ih]
    rfl

/-- Helper: on a well-formed dataframe with at least one column, the
code's substring fallback succeeds and computes exactly the spec's
substring search: a row is kept iff some column's stringified value
contains the filter text. -/
theorem substring_fallback_eq [Inhabited α] (toStr : α → String)
    (df : PyDataFrame α) (text : String)
    (hnames : df.names ≠ []) (hwf : df.wf) :
    substring_fallback toStr df text
      = .ok (substring_search_spec toStr df text) := by
  obtain ⟨n0, ns, hn⟩ := List.exists_cons_of_ne_nil hnames
  have hL : df.names.length = ns.length + 1 := by rw [hn]; rfl
  simp only [substring_fallback, hL, List.range_succ_eq_map, List.map_cons,
    PyDataFrame.column, List.map_map, Function.comp_def, Nat.succ_eq_add_one]
  rw [foldl_zipWith_or_map df.rows (List.range ns.length)
    (fun r => strContains (toStr (r.getD 0 default)) text)
    (fun j r => strContains (toStr (r.getD (j + 1) default)) text)]
  unfold PyDataFrame.selectRows substring_search_spec
  simp only [Except.ok.injEq, PyDataFrame.mk.injEq, true_and]
  have hmask : (df.rows.map
      (fun r => (List.range ns.length).foldl
        (fun b j => b || strContains (toStr (r.getD (j + 1) default)) text)
        (strContains (toStr (r.getD 0 default)) text)))
      = df.rows.map (fun r => r.any (fun v => strContains (toStr v) text)) := by
    apply List.map_congr_left
    intro r hr
    have hrlen : r.length = df.names.length := hwf r hr
    have h2 := range_any_getD (fun v => strContains (toStr v) text) r
    simp only [hrlen, hL, List.range_succ_eq_map, List.any_cons, List.any_map,
      Function.comp_def, Nat.succ_eq_add_one] at h2
    rw [foldl_or_any]
    exact h2
  rw [hmask, applyMask_map]

/-- Claim C2, as stated, is false on the code: for a data source with no
columns and the well-formed non-empty filter text `"x"`, the fallback
itself raises (`functools.reduce` of an empty sequence raises `TypeError`
inside the `except` handler), so the filter step surfaces an error to its
caller instead of returning the substring-search result. -/
theorem claim_C2_counterexample :
    filter_step (fun s : String => s) ⟨[], [[], []]⟩ (Except.error ()) "x"
      = Except.error () ∧
    ∀ d, filter_step (fun s : String => s) ⟨[], [[], []]⟩ (Except.error ()) "x"
      ≠ Except.ok d := by
  exact ⟨rfl, fun d h => Except.noConfusion h⟩

/-- Claim C2 (amended): for every non-empty filter text and every
well-formed data source with at least one column, if running the compiled
filter raises any error the filter step returns — without surfacing any
error — exactly the substring search result: a row is kept iff at least
one column's stringified value contains the filter text as a
case-sensitive substring.  (For a zero-column data source the fallback
itself raises.) -/
theorem claim_C2_theorem [Inhabited α] (toStr : α → String)
    (df : PyDataFrame α) (text : String)
    (hnames : df.names ≠ []) (hwf : df.wf) (htext : text ≠ "") :
    filter_step toStr df (.error ()) text
      = .ok (substring_search_spec toStr df text) := by
  unfold filter_step
  rw [if_neg htext]
  exact substring_fallback_eq toStr df text hnames hwf

/-- Witness for `claim_C2_theorem`: two columns, three rows of strings;
with filter text `"ny"` the evaluation error path falls back to keeping
exactly the rows where some cell contains `"ny"`. -/
theorem claim_C2_witness :
    filter_step (fun s : String => s)
      ⟨["name", "city"], [["bob", "nyc"], ["eve", "sf"], ["tony", "la"]]⟩
      (Except.error ()) "ny"
      = .ok (substring_search_spec (fun s : String => s)
          ⟨["name", "city"], [["bob", "nyc"], ["eve", "sf"], ["tony", "la"]]⟩ "ny") := by
  exact claim_C2_theorem (fun s : String => s)
    ⟨["name", "city"], [["bob", "nyc"], ["eve", "sf"], ["tony", "la"]]⟩
    "ny" (by decide) (by decide) (by decide)

end Dbv
